import Mathlib

/-
Verification of the pcheck proxy checker (src/checker.py).

The program deduplicates the lines of an input file, parses each line as a
proxy credential string with two regular expressions, probes each parsed
proxy with one HTTP request, aggregates results in completion order, and
writes the working proxies to an output file.

The embedding below translates the Python source into Lean:
  * the two regular expressions of parse_proxy are run by a small
    backtracking matcher (matchToks) over an explicit token list; the
    matcher is fuel-indexed so that it is structurally recursive and hence
    evaluable by the kernel.  Python regex notes: both patterns are anchored
    with a caret and a dollar; in Python the dollar also matches just before
    a trailing newline, but every character class in these two patterns
    admits the newline character, so the greedy run always swallows a
    trailing newline and the end-of-input reading used here coincides with
    Python's behaviour on these patterns.
  * CPython's int() on a str is modelled by pyInt over ASCII: surrounding
    whitespace is stripped, an optional sign is read, and digits may be
    separated by single underscores.  int() raising ValueError is modelled
    as Except.error.
  * network I/O (aiohttp session.get) is abstracted by a function
    net : String -> Except Unit Nat, mapping the proxy url to either a
    raised exception or a response status.
  * asyncio.as_completed delivers results in an arbitrary completion order;
    theorems quantify over a permutation of the candidate list.
-/

namespace PCheck

/-! ### Regex tokens and backtracking matcher -/

/-- One token of an anchored regex: a bare literal, an optional captured
literal such as the scheme marker, or a captured nonempty greedy run of
characters outside a forbidden set, i.e. a plus of a negated class. -/
inductive Tok where
  | lit : List Char → Tok
  | opt : List Char → Tok
  | cls : List Char → Tok
deriving Repr

/-- The capture list of a match: one entry per capturing token. -/
abbrev Caps := List (Option (List Char))

/-- Backtracking for a greedy captured class run: try the prefix of length
n first, then shorter ones, never the empty one. -/
def tryLens (k : List Char → Option Caps) (s : List Char) : Nat → Option Caps
  | 0 => none
  | n + 1 =>
      match k (s.drop (n + 1)) with
      | some caps => some (some (s.take (n + 1)) :: caps)
      | none => tryLens k s n

/-- Anchored matcher with capture groups.  Greedy semantics: an optional
literal is tried present first; a class run is tried longest first.  The
fuel only needs to exceed the token-list length (see runMatch). -/
def matchToks : Nat → List Tok → List Char → Option Caps
  | 0, _, _ => none
  | _ + 1, [], s => if s.isEmpty then some [] else none
  | fuel + 1, Tok.lit l :: ts, s =>
      if l <+: s then matchToks fuel ts (s.drop l.length) else none
  | fuel + 1, Tok.opt l :: ts, s =>
      if l <+: s then
        match matchToks fuel ts (s.drop l.length) with
        | some caps => some (some l :: caps)
        | none => (matchToks fuel ts s).map (fun caps => none :: caps)
      else (matchToks fuel ts s).map (fun caps => none :: caps)
  | fuel + 1, Tok.cls bad :: ts, s =>
      tryLens (fun s2 => matchToks fuel ts s2) s
        (s.takeWhile (fun c => !(bad.contains c))).length

/-- Run a token list against a string with adequate fuel: each token
consumes exactly one unit of fuel, plus one for the empty tail. -/
def runMatch (ts : List Tok) (s : List Char) : Option Caps :=
  matchToks (ts.length + 1) ts s

/-- The characters of the optional scheme marker "http://". -/
def schemeChars : List Char := ['h', 't', 't', 'p', ':', '/', '/']

/-- Token form of the first regex of parse_proxy:
(http://)?([^:]+):([^:]+):([^:]+):([^@]+) anchored on both sides. -/
def pattern1 : List Tok :=
  [Tok.opt schemeChars, Tok.cls [':'], Tok.lit [':'], Tok.cls [':'],
   Tok.lit [':'], Tok.cls [':'], Tok.lit [':'], Tok.cls ['@']]

/-- Token form of the second regex of parse_proxy:
(http://)?([^:]+):([^@]+)@([^:]+):([^/]+) anchored on both sides. -/
def pattern2 : List Tok :=
  [Tok.opt schemeChars, Tok.cls [':'], Tok.lit [':'], Tok.cls ['@'],
   Tok.lit ['@'], Tok.cls [':'], Tok.lit [':'], Tok.cls ['/']]

/-! ### CPython int() over a string, modelled for ASCII input -/

/-- Digit run with single underscores allowed between digits; the flag
records whether the previous character was a digit. -/
def pyDigitsCore : Bool → Nat → List Char → Option Nat
  | prevDigit, acc, [] => if prevDigit then some acc else none
  | prevDigit, acc, c :: cs =>
      if c.isDigit then pyDigitsCore true (acc * 10 + (c.toNat - 48)) cs
      else if c == '_' && prevDigit then pyDigitsCore false acc cs
      else none

/-- CPython int(str) for ASCII text: strip surrounding whitespace, read an
optional sign, then an underscore-separated digit run; anything else raises
ValueError, modelled as Except.error. -/
def pyInt (s : List Char) : Except Unit Int :=
  let t := ((s.dropWhile Char.isWhitespace).reverse.dropWhile
    Char.isWhitespace).reverse
  match t with
  | '+' :: rest =>
      match pyDigitsCore false 0 rest with
      | some n => Except.ok (Int.ofNat n)
      | none => Except.error ()
  | '-' :: rest =>
      match pyDigitsCore false 0 rest with
      | some n => Except.ok (-(Int.ofNat n))
      | none => Except.error ()
  | rest =>
      match pyDigitsCore false 0 rest with
      | some n => Except.ok (Int.ofNat n)
      | none => Except.error ()

/-! ### The proxy descriptor and parse_proxy -/

/-- The dictionary returned by parse_proxy on success.  The port is an Int
because CPython int() may produce any integer, including negative ones. -/
structure ProxyDescriptor where
  scheme : String
  host : String
  port : Int
  username : String
  password : String
deriving DecidableEq, Repr

/-- Build the descriptor from the captures of the first regex: groups are
scheme marker, host, port, username, password.  Calling int() on the port
group can raise, hence the Except.  For pattern1 the capture list always
has the shape below with all four class groups present, so the final
catch-all is dead code kept only for totality. -/
def buildFrom1 (caps : Caps) : Except Unit (Option ProxyDescriptor) :=
  match caps with
  | [_, some host, some port, some user, some pw] =>
      match pyInt port with
      | Except.ok n =>
          Except.ok (some
            { scheme := "http", host := String.mk host, port := n,
              username := String.mk user, password := String.mk pw })
      | Except.error e => Except.error e
  | _ => Except.ok none

/-- Build the descriptor from the captures of the second regex: groups are
scheme marker, username, password, host, port. -/
def buildFrom2 (caps : Caps) : Except Unit (Option ProxyDescriptor) :=
  match caps with
  | [_, some user, some pw, some host, some port] =>
      match pyInt port with
      | Except.ok n =>
          Except.ok (some
            { scheme := "http", host := String.mk host, port := n,
              username := String.mk user, password := String.mk pw })
      | Except.error e => Except.error e
  | _ => Except.ok none

/-- parse_proxy (src/checker.py lines 34-57): try the first regex, then the
second, else return None.  Except.error models an uncaught ValueError from
int() on the port group. -/
def parse_proxy (proxy : String) : Except Unit (Option ProxyDescriptor) :=
  match runMatch pattern1 proxy.data with
  | some caps => buildFrom1 caps
  | none =>
      match runMatch pattern2 proxy.data with
      | some caps => buildFrom2 caps
      | none => Except.ok none

/-! ### check_proxy -/

/-- The f-string building the proxy connection url (line 65). -/
def proxy_url (info : ProxyDescriptor) : String :=
  "http://" ++ info.username ++ ":" ++ info.password ++ "@" ++ info.host
    ++ ":" ++ toString info.port

/-- The try/except around session.get (lines 66-70): any exception raised
by the request - connection error, DNS failure, timeout - is caught and
collapsed to false; a completed response yields the test status == 200. -/
def probeOutcome (resp : Except Unit Nat) : Bool :=
  match resp with
  | Except.ok status => status == 200
  | Except.error _ => false

/-- The body of check_proxy after parse_proxy has returned (lines 62-70):
a None descriptor short-circuits to false without touching the network;
otherwise the request outcome decides the boolean.  The original candidate
string is always returned unchanged in the first component. -/
def check_proxy_body (proxy : String) (net : String → Except Unit Nat)
    (info : Option ProxyDescriptor) : String × Bool :=
  match info with
  | none => (proxy, false)
  | some i => (proxy, probeOutcome (net (proxy_url i)))

/-- check_proxy (lines 60-70).  parse_proxy runs outside the try block, so
an exception raised by it propagates to the caller (Except.error). -/
def check_proxy (net : String → Except Unit Nat) (proxy : String) :
    Except Unit (String × Bool) :=
  match parse_proxy proxy with
  | Except.error e => Except.error e
  | Except.ok info => Except.ok (check_proxy_body proxy net info)

/-- The probe outcome a candidate contributes when the run does not abort:
the boolean of the ProbeResult pair. -/
def outcome (net : String → Except Unit Nat) (proxy : String) : Bool :=
  match check_proxy net proxy with
  | Except.ok r => r.2
  | Except.error _ => false

/-! ### Input handling: file lines and return_unique -/

/-- Python file iteration yields each line with its trailing newline kept;
a last fragment without a newline is yielded too, and an empty tail yields
nothing.  The first argument accumulates the current line reversed. -/
def pyLinesAux : List Char → List Char → List String
  | acc, [] => if acc.isEmpty then [] else [String.mk acc.reverse]
  | acc, c :: cs =>
      if c = '\n' then String.mk (acc.reverse ++ ['\n']) :: pyLinesAux [] cs
      else pyLinesAux (c :: acc) cs

/-- All lines of the input file content, newlines kept. -/
def pyLines (content : String) : List String := pyLinesAux [] content.data

/-- The loop of return_unique (lines 24-31) with the lines_seen set
modelled as the list of strings already added. -/
def uniqueAux (seen : List String) : List String → List String
  | [] => []
  | l :: ls =>
      if l ∈ seen then uniqueAux seen ls
      else l :: uniqueAux (l :: seen) ls

/-- return_unique (lines 24-31): keep the first occurrence of each exact
line, in first-seen order.  Lines are taken verbatim, never stripped. -/
def return_unique (lines : List String) : List String := uniqueAux [] lines

/-! ### The main loop -/

/-- The mutable counters and lists of main (lines 79-98). -/
structure RunState where
  completed : Nat
  workingProxies : List String
  invalidProxies : List String
  workingCount : Nat
  invalidCount : Nat
deriving DecidableEq, Repr

/-- Counters before the as_completed loop starts. -/
def initialRunState : RunState :=
  { completed := 0, workingProxies := [], invalidProxies := [],
    workingCount := 0, invalidCount := 0 }

/-- One iteration of the as_completed loop (lines 90-98) on an awaited
ProbeResult: bump completed, then append to the working or invalid side. -/
def processResult (st : RunState) (r : String × Bool) : RunState :=
  let st1 := { st with completed := st.completed + 1 }
  if r.2 then
    { st1 with workingProxies := st1.workingProxies ++ [r.1],
               workingCount := st1.workingCount + 1 }
  else
    { st1 with invalidProxies := st1.invalidProxies ++ [r.1],
               invalidCount := st1.invalidCount + 1 }

/-- The as_completed loop over the task results in completion order.  An
exception raised inside a task re-raises at its await and aborts main. -/
def runLoop (st : RunState) : List (Except Unit (String × Bool)) →
    Except Unit RunState
  | [] => Except.ok st
  | Except.error e :: _ => Except.error e
  | Except.ok r :: rest => runLoop (processResult st r) rest

/-- main (lines 74-112) given the deduplicated candidates in completion
order: run every probe, aggregate, and only then build the output file
content, one working proxy per line with a newline appended (line 112). -/
def mainRun (proxies : List String) (net : String → Except Unit Nat) :
    Except Unit (RunState × String) :=
  match runLoop initialRunState (proxies.map (check_proxy net)) with
  | Except.error e => Except.error e
  | Except.ok st =>
      Except.ok (st, String.join (st.workingProxies.map (fun p => p ++ "\n")))

/-! ### Throughput -/

/-- The checks_per_second expression of line 101, with real-valued time
modelled by the rationals: completed / elapsed when elapsed > 0, else 0. -/
def checks_per_second (completed : Nat) (elapsed : ℚ) : ℚ :=
  if elapsed > 0 then (completed : ℚ) / elapsed else 0

end PCheck

deriving instance DecidableEq for Except

namespace PCheck

/-! ### Helper lemmas about the matcher captures -/

theorem isInfix_of_isInfix_drop {x s : List Char} {n : Nat}
    (h : x <:+: s.drop n) : x <:+: s :=
  h.trans (List.drop_suffix n s).isInfix

theorem take_isInfix (s : List Char) (n : Nat) : s.take n <:+: s :=
  ⟨[], s.drop n, by simp⟩

theorem tryLens_infix (k : List Char → Option Caps) (s : List Char)
    (hk : ∀ s2 caps2, k s2 = some caps2 → ∀ x, some x ∈ caps2 → x <:+: s2) :
    ∀ n caps, tryLens k s n = some caps → ∀ x, some x ∈ caps → x <:+: s := by
  intro n
  induction n with
  | zero => intro caps h; cases h
  | succ n ih =>
      intro caps h x hx
      rw [tryLens] at h
      cases hks : k (s.drop (n + 1)) with
      | some caps2 =>
          simp only [hks] at h
          injection h with h
          subst h
          rcases List.mem_cons.mp hx with h1 | h1
          · have hxe := Option.some.inj h1
            subst hxe
            exact take_isInfix s (n + 1)
          · exact isInfix_of_isInfix_drop (hk _ _ hks x h1)
      | none =>
          simp only [hks] at h
          exact ih caps h x hx

theorem matchToks_infix :
    ∀ (fuel : Nat) (ts : List Tok) (s : List Char) (caps : Caps),
      matchToks fuel ts s = some caps → ∀ x, some x ∈ caps → x <:+: s := by
  intro fuel
  induction fuel with
  | zero => intro ts s caps h; cases h
  | succ fuel ih =>
      intro ts s caps h x hx
      match ts with
      | [] =>
          rw [matchToks] at h
          split at h
          · injection h with h
            subst h
            cases hx
          · cases h
      | Tok.lit l :: ts =>
          rw [matchToks] at h
          split at h
          · exact isInfix_of_isInfix_drop (ih ts _ caps h x hx)
          · cases h
      | Tok.opt l :: ts =>
          rw [matchToks] at h
          by_cases hpre : l <+: s
          · rw [if_pos hpre] at h
            cases hm : matchToks fuel ts (s.drop l.length) with
            | some caps2 =>
                simp only [hm] at h
                injection h with h
                subst h
                rcases List.mem_cons.mp hx with h1 | h1
                · have hxe := Option.some.inj h1
                  subst hxe
                  exact hpre.isInfix
                · exact isInfix_of_isInfix_drop (ih ts _ caps2 hm x h1)
            | none =>
                simp only [hm] at h
                rcases Option.map_eq_some'.mp h with ⟨caps2, hm2, hcap⟩
                subst hcap
                rcases List.mem_cons.mp hx with h1 | h1
                · cases h1
                · exact ih ts s caps2 hm2 x h1
          · rw [if_neg hpre] at h
            rcases Option.map_eq_some'.mp h with ⟨caps2, hm2, hcap⟩
            subst hcap
            rcases List.mem_cons.mp hx with h1 | h1
            · cases h1
            · exact ih ts s caps2 hm2 x h1
      | Tok.cls bad :: ts =>
          rw [matchToks] at h
          exact tryLens_infix _ s
            (fun s2 caps2 h2 x2 hx2 => ih ts s2 caps2 h2 x2 hx2) _ caps h x hx

theorem runMatch_infix (ts : List Tok) (s : List Char) (caps : Caps)
    (h : runMatch ts s = some caps) : ∀ x, some x ∈ caps → x <:+: s :=
  matchToks_infix _ ts s caps h

theorem buildFrom1_fields (caps : Caps) (d : ProxyDescriptor)
    (h : buildFrom1 caps = Except.ok (some d)) :
    d.scheme = "http" ∧ some d.host.data ∈ caps ∧
      some d.username.data ∈ caps ∧ some d.password.data ∈ caps := by
  unfold buildFrom1 at h
  split at h
  next g1 host port user pw =>
    split at h
    next n heq =>
      injection h with h
      have hde := Option.some.inj h
      subst hde
      refine ⟨rfl, ?_, ?_, ?_⟩
      · show some host ∈ _
        simp
      · show some user ∈ _
        simp
      · show some pw ∈ _
        simp
    next heq => cases h
  next =>
    injection h with h
    exact Option.noConfusion h

theorem buildFrom2_fields (caps : Caps) (d : ProxyDescriptor)
    (h : buildFrom2 caps = Except.ok (some d)) :
    d.scheme = "http" ∧ some d.host.data ∈ caps ∧
      some d.username.data ∈ caps ∧ some d.password.data ∈ caps := by
  unfold buildFrom2 at h
  split at h
  next g1 user pw host port =>
    split at h
    next n heq =>
      injection h with h
      have hde := Option.some.inj h
      subst hde
      refine ⟨rfl, ?_, ?_, ?_⟩
      · show some host ∈ _
        simp
      · show some user ∈ _
        simp
      · show some pw ∈ _
        simp
    next heq => cases h
  next =>
    injection h with h
    exact Option.noConfusion h

/-! ### Helper lemmas about return_unique -/

theorem uniqueAux_sublist (seen l : List String) :
    (uniqueAux seen l).Sublist l := by
  induction l generalizing seen with
  | nil => simp [uniqueAux]
  | cons h t ih =>
      by_cases hm : h ∈ seen
      · rw [uniqueAux, if_pos hm]
        exact (ih seen).trans (List.sublist_cons_self h t)
      · rw [uniqueAux, if_neg hm]
        exact (ih (h :: seen)).cons₂ h

theorem uniqueAux_mem (seen l : List String) (x : String) :
    x ∈ uniqueAux seen l ↔ x ∈ l ∧ x ∉ seen := by
  induction l generalizing seen with
  | nil => simp [uniqueAux]
  | cons h t ih =>
      by_cases hm : h ∈ seen
      · rw [uniqueAux, if_pos hm, ih]
        constructor
        · rintro ⟨hx, hn⟩
          exact ⟨List.mem_cons_of_mem h hx, hn⟩
        · rintro ⟨hx, hn⟩
          rcases List.mem_cons.mp hx with rfl | hx2
          · exact absurd hm hn
          · exact ⟨hx2, hn⟩
      · rw [uniqueAux, if_neg hm]
        constructor
        · intro hx
          rcases List.mem_cons.mp hx with rfl | hx2
          · exact ⟨List.mem_cons_self _ _, hm⟩
          · obtain ⟨hxt, hxn⟩ := (ih (h :: seen)).mp hx2
            exact ⟨List.mem_cons_of_mem h hxt,
              fun hc => hxn (List.mem_cons_of_mem h hc)⟩
        · rintro ⟨hx, hn⟩
          by_cases hxh : x = h
          · subst hxh
            exact List.mem_cons_self _ _
          · rcases List.mem_cons.mp hx with rfl | hx2
            · exact absurd rfl hxh
            · exact List.mem_cons_of_mem h ((ih (h :: seen)).mpr
                ⟨hx2, fun hc => (List.mem_cons.mp hc).elim hxh hn⟩)

theorem uniqueAux_nodup (seen l : List String) : (uniqueAux seen l).Nodup := by
  induction l generalizing seen with
  | nil => simp [uniqueAux]
  | cons h t ih =>
      by_cases hm : h ∈ seen
      · rw [uniqueAux, if_pos hm]
        exact ih seen
      · rw [uniqueAux, if_neg hm]
        refine List.nodup_cons.mpr ⟨fun hc => ?_, ih (h :: seen)⟩
        exact ((uniqueAux_mem (h :: seen) t h).mp hc).2 (List.mem_cons_self h seen)

theorem uniqueAux_snoc (seen l : List String) (x : String) :
    uniqueAux seen (l ++ [x]) =
      uniqueAux seen l ++ (if x ∈ seen ∨ x ∈ l then [] else [x]) := by
  induction l generalizing seen with
  | nil =>
      by_cases hm : x ∈ seen <;> simp [uniqueAux, hm]
  | cons h t ih =>
      by_cases hm : h ∈ seen
      · rw [List.cons_append, uniqueAux, if_pos hm, ih seen,
          uniqueAux, if_pos hm]
        have hcond : (x ∈ seen ∨ x ∈ t) ↔ (x ∈ seen ∨ x ∈ h :: t) := by
          simp only [List.mem_cons]
          constructor
          · tauto
          · rintro (hx | rfl | hx)
            · exact Or.inl hx
            · exact Or.inl hm
            · exact Or.inr hx
        rw [if_congr hcond rfl rfl]
      · rw [List.cons_append, uniqueAux, if_neg hm, ih (h :: seen),
          uniqueAux, if_neg hm]
        have hcond : (x ∈ h :: seen ∨ x ∈ t) ↔ (x ∈ seen ∨ x ∈ h :: t) := by
          simp only [List.mem_cons]
          tauto
        rw [if_congr hcond rfl rfl, List.cons_append]

/-! ### Helper lemmas about check_proxy and the main loop -/

theorem check_proxy_body_fst (proxy : String) (net : String → Except Unit Nat)
    (info : Option ProxyDescriptor) : (check_proxy_body proxy net info).1 = proxy := by
  cases info <;> rfl

theorem outcome_eq (net : String → Except Unit Nat) (p : String)
    (info : Option ProxyDescriptor) (hp : parse_proxy p = Except.ok info) :
    outcome net p = (check_proxy_body p net info).2 := by
  unfold outcome check_proxy
  rw [hp]

theorem check_proxy_ok (net : String → Except Unit Nat) (p : String)
    (r : String × Bool) (h : check_proxy net p = Except.ok r) :
    r = (p, outcome net p) := by
  unfold check_proxy at h
  cases hp : parse_proxy p with
  | error e => rw [hp] at h; cases h
  | ok info =>
      rw [hp] at h
      injection h with h
      subst h
      have hfst := check_proxy_body_fst p net info
      have hout := outcome_eq net p info hp
      cases hbody : check_proxy_body p net info with
      | mk a b =>
          rw [hbody] at hfst hout
          rw [Prod.mk.injEq]
          exact ⟨hfst, hout.symm⟩

theorem runLoop_inv (net : String → Except Unit Nat) :
    ∀ (cands : List String) (st st2 : RunState),
      runLoop st (cands.map (check_proxy net)) = Except.ok st2 →
      st2.completed = st.completed + cands.length ∧
      st2.workingProxies =
        st.workingProxies ++ cands.filter (fun p => outcome net p) ∧
      st2.workingCount =
        st.workingCount + (cands.filter (fun p => outcome net p)).length ∧
      st2.invalidProxies =
        st.invalidProxies ++ cands.filter (fun p => !(outcome net p)) ∧
      st2.invalidCount =
        st.invalidCount + (cands.filter (fun p => !(outcome net p))).length := by
  intro cands
  induction cands with
  | nil =>
      intro st st2 h
      injection h with h
      subst h
      simp
  | cons c cs ih =>
      intro st st2 h
      rw [List.map_cons] at h
      cases hc : check_proxy net c with
      | error e =>
          rw [hc] at h
          cases h
      | ok r =>
          rw [hc] at h
          rw [check_proxy_ok net c r hc] at h
          have hstep := ih (processResult st (c, outcome net c)) st2 h
          obtain ⟨h1, h2, h3, h4, h5⟩ := hstep

          cases hb : outcome net c with
          | true =>
              rw [hb] at h1 h2 h3 h4 h5
              refine ⟨?_, ?_, ?_, ?_, ?_⟩ <;>
                simp_all [processResult, List.filter_cons, hb] <;> omega
          | false =>
              rw [hb] at h1 h2 h3 h4 h5
              refine ⟨?_, ?_, ?_, ?_, ?_⟩ <;>
                simp_all [processResult, List.filter_cons, hb] <;> omega

theorem mainRun_ok (proxies : List String) (net : String → Except Unit Nat)
    (st : RunState) (out : String)
    (h : mainRun proxies net = Except.ok (st, out)) :
    runLoop initialRunState (proxies.map (check_proxy net)) = Except.ok st ∧
    out = String.join (st.workingProxies.map (fun p => p ++ "\n")) := by
  unfold mainRun at h
  cases hr : runLoop initialRunState (proxies.map (check_proxy net)) with
  | error e => rw [hr] at h; cases h
  | ok st3 =>
      rw [hr] at h
      injection h with h
      rw [Prod.mk.injEq] at h
      obtain ⟨rfl, rfl⟩ := h
      exact ⟨rfl, rfl⟩

/-! ### The claims -/

/-- C1, code_bug evidence: on the candidate "host:abc:user:pass" the first
layout pattern matches but the port field is not a valid integer, and
parse_proxy raises the ValueError from int() (modelled as Except.error)
instead of returning None; the exception propagates out of check_proxy and
aborts the whole run, contradicting the claim. -/
theorem c1_invalid_port_raises :
    parse_proxy "host:abc:user:pass" = Except.error () := by decide

/-- C2: when a run completes, the working list is exactly the candidates
whose probe outcome was true, in completion order; its length is the final
Working count of the last progress update; and the output file content is
those candidates each with one newline appended. -/
theorem c2_working_list (lines perm : List String)
    (net : String → Except Unit Nat) (st : RunState) (out : String)
    (hperm : perm.Perm (return_unique lines))
    (h : mainRun perm net = Except.ok (st, out)) :
    st.workingProxies = perm.filter (fun p => outcome net p) ∧
    st.workingCount = st.workingProxies.length ∧
    out = String.join (st.workingProxies.map (fun p => p ++ "\n")) ∧
    ∀ p : String, p ∈ st.workingProxies ↔
      p ∈ return_unique lines ∧ outcome net p = true := by
  obtain ⟨hloop, hout⟩ := mainRun_ok perm net st out h
  obtain ⟨h1, h2, h3, h4, h5⟩ := runLoop_inv net perm initialRunState st hloop
  simp only [initialRunState, List.nil_append, Nat.zero_add] at h2 h3
  refine ⟨h2, ?_, hout, fun p => ?_⟩
  · rw [h2, h3]
  · rw [h2, List.mem_filter, hperm.mem_iff]

/-- C2 witness: a one-candidate run with a 200 response. -/
theorem c2_working_list_witness :
    (⟨1, ["u:p@h:1"], [], 1, 0⟩ : RunState).workingProxies =
      List.filter (fun p => outcome (fun _ => Except.ok 200) p) ["u:p@h:1"] ∧
    (⟨1, ["u:p@h:1"], [], 1, 0⟩ : RunState).workingCount =
      (⟨1, ["u:p@h:1"], [], 1, 0⟩ : RunState).workingProxies.length ∧
    ("u:p@h:1" ∈ (⟨1, ["u:p@h:1"], [], 1, 0⟩ : RunState).workingProxies ↔
      "u:p@h:1" ∈ return_unique ["u:p@h:1"] ∧
        outcome (fun _ => Except.ok 200) "u:p@h:1" = true) := by
  have h := c2_working_list ["u:p@h:1"] ["u:p@h:1"] (fun _ => Except.ok 200)
    ⟨1, ["u:p@h:1"], [], 1, 0⟩ "u:p@h:1\n" (by decide) (by decide)
  exact ⟨h.1, h.2.1, h.2.2.2 "u:p@h:1"⟩

/-- C3, code_bug evidence: an input whose single unique line is "h:xx:u:p"
crashes the run before any ProbeResult is produced - mainRun aborts with
the uncaught ValueError from int() - so the malformed line is dropped
rather than counted as failed, and completed (0) differs from the total
number of unique candidates (1). -/
theorem c3_run_aborts_on_bad_port :
    mainRun ["h:xx:u:p"] (fun _ => Except.ok 200) = Except.error () := by decide

/-- C4: given the parse result and the request response, the probe body
returns the original candidate string paired with a boolean that is true
exactly when a descriptor exists and the request through it completed with
status 200; a None descriptor or a raised request exception yields false,
and the body is a total function into String × Bool, so it never raises. -/
theorem c4_probe_iff_200 (proxy : String) (net : String → Except Unit Nat)
    (info : Option ProxyDescriptor) :
    (check_proxy_body proxy net info).1 = proxy ∧
    ((check_proxy_body proxy net info).2 = true ↔
      ∃ i, info = some i ∧ net (proxy_url i) = Except.ok 200) := by
  refine ⟨check_proxy_body_fst proxy net info, ?_⟩
  cases info with
  | none => simp [check_proxy_body]
  | some i =>
      simp only [check_proxy_body]
      cases hres : net (proxy_url i) with
      | ok status => simp [probeOutcome, hres]
      | error e => simp [probeOutcome, hres]

/-- C5: the parser round-trip examples - the at-sign layout and the
colon layout both yield the descriptor (host.example, 8080, user, pass),
and a string matching neither pattern yields None. -/
theorem c5_parser_round_trip :
    parse_proxy "user:pass@host.example:8080" =
      Except.ok (some
        { scheme := "http", host := "host.example", port := 8080,
          username := "user", password := "pass" }) ∧
    parse_proxy "host.example:8080:user:pass" =
      Except.ok (some
        { scheme := "http", host := "host.example", port := 8080,
          username := "user", password := "pass" }) ∧
    parse_proxy "not-a-valid-string" = Except.ok none := by decide

/-- C6 counterexample: the input "a:1:c@d:2" is matched by both layout
patterns at once, refuting the part of the claim stating that at most one
of the two patterns matches any input. -/
theorem c6_both_patterns_match :
    (runMatch pattern1 "a:1:c@d:2".data).isSome = true ∧
    (runMatch pattern2 "a:1:c@d:2".data).isSome = true := by decide

/-- C6 amended: the two patterns are not mutually exclusive, but whenever
the first pattern matches, parse_proxy returns the descriptor built from
the first pattern's captures, taking precedence over any second-pattern
match. -/
theorem c6_first_pattern_precedence (s : String) (caps : Caps)
    (h : runMatch pattern1 s.data = some caps) :
    parse_proxy s = buildFrom1 caps := by
  unfold parse_proxy
  rw [h]

/-- C6 witness: the double-match input is parsed from the first pattern. -/
theorem c6_first_pattern_precedence_witness :
    parse_proxy "a:1:c@d:2" =
      buildFrom1 [none, some ['a'], some ['1'], some ['c', '@', 'd'],
        some ['2']] :=
  c6_first_pattern_precedence "a:1:c@d:2"
    [none, some ['a'], some ['1'], some ['c', '@', 'd'], some ['2']]
    (by decide)

/-- C7 counterexample: parse_proxy succeeds on "h:99999:u:p" with port
99999, outside the claimed range 1-65535. -/
theorem c7_port_out_of_range :
    parse_proxy "h:99999:u:p" =
      Except.ok (some
        { scheme := "http", host := "h", port := 99999,
          username := "u", password := "p" }) ∧
    ¬((99999 : Int) ≤ 65535) := by decide

/-- C7 amended: on every successful parse the descriptor's scheme is the
fixed "http" regardless of any scheme marker in the input, and host,
username and password are verbatim contiguous substrings of the input; the
port is whatever integer int() produced for the port field, with no range
restriction. -/
theorem c7_descriptor_fields (s : String) (d : ProxyDescriptor)
    (h : parse_proxy s = Except.ok (some d)) :
    d.scheme = "http" ∧ d.host.data <:+: s.data ∧
    d.username.data <:+: s.data ∧ d.password.data <:+: s.data := by
  unfold parse_proxy at h
  cases h1 : runMatch pattern1 s.data with
  | some caps =>
      rw [h1] at h
      obtain ⟨hs, hh, hu, hp2⟩ := buildFrom1_fields caps d h
      exact ⟨hs, runMatch_infix _ _ _ h1 _ hh,
        runMatch_infix _ _ _ h1 _ hu, runMatch_infix _ _ _ h1 _ hp2⟩
  | none =>
      rw [h1] at h
      cases h2 : runMatch pattern2 s.data with
      | some caps =>
          rw [h2] at h
          obtain ⟨hs, hh, hu, hp2⟩ := buildFrom2_fields caps d h
          exact ⟨hs, runMatch_infix _ _ _ h2 _ hh,
            runMatch_infix _ _ _ h2 _ hu, runMatch_infix _ _ _ h2 _ hp2⟩
      | none =>
          rw [h2] at h
          injection h with h
          exact Option.noConfusion h

/-- C7 witness: the fields of the parsed "h:1:u:p". -/
theorem c7_descriptor_fields_witness :
    ({ scheme := "http", host := "h", port := 1, username := "u",
       password := "p" } : ProxyDescriptor).scheme = "http" ∧
    ({ scheme := "http", host := "h", port := 1, username := "u",
       password := "p" } : ProxyDescriptor).host.data <:+: "h:1:u:p".data ∧
    ({ scheme := "http", host := "h", port := 1, username := "u",
       password := "p" } : ProxyDescriptor).username.data <:+: "h:1:u:p".data ∧
    ({ scheme := "http", host := "h", port := 1, username := "u",
       password := "p" } : ProxyDescriptor).password.data <:+: "h:1:u:p".data :=
  c7_descriptor_fields "h:1:u:p" ⟨"http", "h", 1, "u", "p"⟩ (by decide)

/-- C8: return_unique keeps a duplicate-free subsequence of the input with
the same members - so only first occurrences survive, in first-seen order,
as the snoc characterization makes explicit: a newly appended line is kept
iff it did not occur before - and on the spec's example input the processed
candidate list is exactly A, B, C of size 3. -/
theorem c8_dedup_first_occurrence :
    (∀ l : List String, (return_unique l).Sublist l ∧ (return_unique l).Nodup ∧
      ∀ x : String, x ∈ return_unique l ↔ x ∈ l) ∧
    (∀ (l : List String) (x : String),
      return_unique (l ++ [x]) =
        if x ∈ l then return_unique l else return_unique l ++ [x]) ∧
    return_unique ["A\n", "B\n", "A\n", "C\n"] = ["A\n", "B\n", "C\n"] := by
  refine ⟨fun l => ⟨uniqueAux_sublist [] l, uniqueAux_nodup [] l, fun x => ?_⟩,
    fun l x => ?_, by decide⟩
  · rw [return_unique, uniqueAux_mem]
    simp
  · by_cases hx : x ∈ l <;> simp [return_unique, uniqueAux_snoc, hx]

/-- C9: the throughput of a progress update is completed divided by
elapsed when elapsed is positive, and elapsed at most zero is mapped to
throughput 0, so the division is only ever taken with a nonzero divisor. -/
theorem c9_throughput_guard (c : Nat) (e : ℚ) :
    (e ≤ 0 → checks_per_second c e = 0) ∧
    (0 < e → e ≠ 0 ∧ checks_per_second c e = (c : ℚ) / e) := by
  constructor
  · intro h
    rw [checks_per_second, if_neg (not_lt.mpr h)]
  · intro h
    exact ⟨ne_of_gt h, by rw [checks_per_second, if_pos h]⟩

/-- C9 witness: instances at elapsed -1 and 2. -/
theorem c9_throughput_guard_witness :
    checks_per_second 4 (-1) = 0 ∧
    ((2 : ℚ) ≠ 0 ∧ checks_per_second 4 2 = (4 : ℚ) / 2) :=
  ⟨(c9_throughput_guard 4 (-1)).1 (by norm_num),
   (c9_throughput_guard 4 2).2 (by norm_num)⟩

/-- C10: every working proxy written out is a verbatim line of the input
file - lines are never stripped, so a newline-terminated line keeps its
newline through dedup, parsing and probing - and the output writer appends
one further newline to each entry. -/
theorem c10_verbatim_lines (content : String) (perm : List String)
    (net : String → Except Unit Nat) (st : RunState) (out : String)
    (hperm : perm.Perm (return_unique (pyLines content)))
    (h : mainRun perm net = Except.ok (st, out)) :
    out = String.join (st.workingProxies.map (fun p => p ++ "\n")) ∧
    ∀ p ∈ st.workingProxies, p ∈ pyLines content := by
  obtain ⟨hloop, hout⟩ := mainRun_ok perm net st out h
  obtain ⟨h1, h2, h3, h4, h5⟩ := runLoop_inv net perm initialRunState st hloop
  refine ⟨hout, fun p hp => ?_⟩
  rw [h2] at hp
  simp only [initialRunState, List.nil_append] at hp
  have hpm : p ∈ perm := List.mem_of_mem_filter hp
  have hmem := hperm.mem_iff.mp hpm
  rw [return_unique, uniqueAux_mem] at hmem
  exact hmem.1

/-- C10 witness: the newline-terminated line "a:1:b:c\n" is probed
verbatim, and its output entry "a:1:b:c\n\n" ends in a blank line. -/
theorem c10_verbatim_lines_witness :
    ("a:1:b:c\n\n" = String.join
      ((⟨1, ["a:1:b:c\n"], [], 1, 0⟩ : RunState).workingProxies.map
        (fun p => p ++ "\n"))) ∧
    "a:1:b:c\n" ∈ pyLines "a:1:b:c\n" := by
  have h := c10_verbatim_lines "a:1:b:c\n" ["a:1:b:c\n"]
    (fun _ => Except.ok 200) ⟨1, ["a:1:b:c\n"], [], 1, 0⟩ "a:1:b:c\n\n"
    (by decide) (by decide)
  exact ⟨h.1, h.2 "a:1:b:c\n" (by decide)⟩

end PCheck
